import Mathlib

/-!
Verification development for the LCM Dart code generator
(`src/lcmgen/emit_dart.c`).

The generator turns a resolved schema model (`lcm_struct_t` with members,
dimensions and constants) into Dart source implementing a binary wire
codec.  This file embeds two layers of that program:

* a *text layer*: the pure string/byte computations of the generator
  itself (`to_pascal_case`, `dots_to_slashes`, `map_type_dart`, the
  output-path construction of `emit_dart`, the statement lists emitted by
  `emit_encode_one` / `emit_decode_one`, and the success/failure control
  flow of `emit_dart`'s loop).  C strings are embedded as `List Nat`
  (byte values), exactly as the C code manipulates them.

* a *codec layer*: the denotational semantics of the Dart code that
  `emit_struct` emits for `encode` and `decode`, as functions from
  schema + value to byte streams.  Each branch of these functions
  mirrors one branch of the C emitter's `strcmp` dispatch, in source
  order.  The external `LcmBuffer` runtime (package `lcm_dart`, not part
  of `src/`) is modelled from the spec: fixed-width big-endian reads and
  writes (`uint32(byteLen+1)` string framing, 8-byte fingerprint, IEEE
  values carried as their bit patterns).

Nesting through struct references is bounded by an explicit `fuel`
parameter (a valid schema has no cyclic struct references, so a large
enough fuel always suffices).
-/

/-! ## Byte-stream primitives (modelled from the spec's wire-format table) -/

/-- Modelled from the spec: big-endian fixed-width write of the external
`LcmBuffer` runtime (not under `src/`).  `beBytes w n` is the `w`-byte
big-endian representation of `n mod 2^(8*w)`, most significant byte
first. -/
def beBytes : Nat → Nat → List Nat
  | 0, _ => []
  | w + 1, n => (n / 2 ^ (8 * w)) % 256 :: beBytes w (n % 2 ^ (8 * w))

/-- Value of a big-endian byte list, most significant byte first. -/
def beVal : List Nat → Nat
  | [] => 0
  | b :: bs => b * 256 ^ bs.length + beVal bs

/-- Modelled from the spec: reading `n` bytes from the front of the
stream, failing when fewer are available (the external `LcmBuffer`
throws on underrun). -/
def readN : Nat → List Nat → Option (List Nat × List Nat)
  | 0, s => some ([], s)
  | _ + 1, [] => none
  | n + 1, b :: s => (readN n s).map (fun p => (b :: p.1, p.2))

/-- First `n` elements of a list, failing when the list is shorter
(a Dart index-out-of-range throw). -/
def takeExact : Nat → List α → Option (List α)
  | 0, _ => some []
  | _ + 1, [] => none
  | n + 1, a :: as => (takeExact n as).map (fun l => a :: l)

/-- Two's-complement byte pattern of an integer, `w` bytes, big endian:
the bytes a `putInt8/16/32/64` call of the buffer writes for `n`. -/
def intBytes (w : Nat) (n : Int) : List Nat :=
  beBytes w (n % ((2 : Int) ^ (8 * w))).toNat

/-- Signed reinterpretation of an unsigned `w`-byte value, as returned
by the buffer's `getInt8/16/32/64`. -/
def sIntVal (w : Nat) (u : Nat) : Int :=
  if u < 2 ^ (8 * w - 1) then (u : Int) else (u : Int) - 2 ^ (8 * w)

/-! ## Schema model (`lcmgen.h` structures as read by `emit_dart.c`) -/

/-- Dimension of an array member (`lcm_dimension_t`): the emitter uses
the dimension's `size` text verbatim as a loop bound, which per the
spec's data model is either an integer literal or the name of an
earlier sibling integer member. -/
inductive DimSize
  | lit (n : Nat)
  | var (name : String)
deriving DecidableEq

/-- Member of a struct (`lcm_member_t`): name, type name string
(`lm->type->lctypename`), and dimension list (empty for scalars). -/
structure LcmMember where
  membername : String
  lctypename : String
  dimensions : List DimSize
deriving DecidableEq

/-- Named constant of a struct (`lcm_constant_t`); constants are emitted
verbatim as Dart `static const` declarations and never reach the wire. -/
structure LcmConstant where
  lctypename : String
  membername : String
  val_str : String
deriving DecidableEq

/-- Struct schema (`lcm_struct_t`): identity, precomputed 64-bit
structural hash (stored as its bit pattern), ordered members and
constants. -/
structure LcmStruct where
  package : String
  shortname : String
  hash : Nat
  members : List LcmMember
  constants : List LcmConstant
deriving DecidableEq

/-- Lookup of a struct schema by the type name used in member
references (the generated Dart resolves such references by name). -/
def lookupStruct : List LcmStruct → String → Option LcmStruct
  | [], _ => none
  | ls :: rest, tn => if ls.shortname = tn then some ls else lookupStruct rest tn

/-- Fingerprint transform of `emit_struct` (line 228):
`(ls->hash << 1) + ((ls->hash >> 63) & 1)` on the 64-bit pattern of the
hash, i.e. computed modulo `2^64`.  The signed C shift `>> 63` of the
`int64_t` hash extracts the sign bit, which on the bit pattern is the
logical shift. -/
def fingerprint (hash : Nat) : Nat :=
  ((hash <<< 1) + ((hash >>> 63) &&& 1)) % 2 ^ 64

/-! ## Runtime values of the generated Dart code -/

/-- Runtime value of a generated Dart field.  Dart `int` fields are
mathematical integers (Dart ints are 64-bit, but the buffer masks on
write, so carrying `Int` is faithful for everything the emitter does);
IEEE float/double payloads are carried as their bit patterns (the
buffer stores and loads bits unchanged); strings are carried as their
UTF-8 byte lists; nested messages record the class name used for
dynamic dispatch of `encode`. -/
inductive DartValue
  | vint (n : Int)
  | vfloat (bits : Nat)
  | vdouble (bits : Nat)
  | vstring (bytes : List Nat)
  | vbool (b : Bool)
  | vstruct (typeName : String) (fields : List DartValue)
  | varr (elems : List DartValue)

/-- Lookup in a name/value scope (Dart instance fields on encode,
`final` locals on decode). -/
def lookupLocal : List (String × DartValue) → String → Option DartValue
  | [], _ => none
  | (k, v) :: rest, x => if k = x then some v else lookupLocal rest x

/-- Value of a dimension's loop bound: a literal, or the integer value
of the referenced sibling (instance field on encode, decoded local on
decode). -/
def dimBound (scope : List (String × DartValue)) : DimSize → Option Int
  | .lit n => some (n : Int)
  | .var x =>
    match lookupLocal scope x with
    | some (.vint k) => some k
    | _ => none

/-- Scope of a generated `encode` method body: every instance field is
in scope, bound to its value. -/
def mkScope (ms : List LcmMember) (vs : List DartValue) : List (String × DartValue) :=
  (ms.zip vs).map (fun p => (p.1.membername, p.2))

/-! ## Encode semantics (the Dart emitted by `emit_struct`, lines 282-317,
with element statements from `emit_encode_one`, lines 143-171) -/

/-- Concatenation of the encodings of a list of array elements, in list
order (the body of one generated `for` loop level). -/
def encodeElems (enc : DartValue → Option (List Nat)) : List DartValue → Option (List Nat)
  | [] => some []
  | v :: vs =>
    match enc v with
    | none => none
    | some b =>
      match encodeElems enc vs with
      | none => none
      | some rest => some (b ++ rest)

/-- Semantics of the nested `for` loops emitted for an array member
(`emit_struct` lines 294-313): one loop per dimension, outermost
dimension first, the loop at each level running from `0` to the
dimension's bound; nothing but the element encodings is written (the
comment at line 298: dimension sizes are never encoded).  A negative
variable bound yields zero iterations, as the C-style `for` does. -/
def encodeDims (scope : List (String × DartValue)) (enc : DartValue → Option (List Nat)) :
    List DimSize → DartValue → Option (List Nat)
  | [], v => enc v
  | d :: ds, v =>
    match v with
    | .varr elems =>
      match dimBound scope d with
      | some n =>
        (takeExact n.toNat elems).bind fun sel =>
          encodeElems (fun e => encodeDims scope enc ds e) sel
      | none => none
    | _ => none

/-- Member-by-member encoding of a struct body, in declared member
order (`emit_struct` loop at line 286), given the per-type scalar
encoder. -/
def encodeMembers (encOne : String → DartValue → Option (List Nat))
    (scope : List (String × DartValue)) :
    List LcmMember → List DartValue → Option (List Nat)
  | [], [] => some []
  | m :: ms, v :: vs =>
    match encodeDims scope (encOne m.lctypename) m.dimensions v with
    | none => none
    | some b =>
      match encodeMembers encOne scope ms vs with
      | none => none
      | some rest => some (b ++ rest)
  | _, _ => none

/-- Scalar/element encode semantics, one branch per `strcmp` branch of
`emit_encode_one` (lines 143-171), in source order.  The final branch
is the struct-reference case `accessor.encode(buf);`: Dart dispatches
on the runtime class of the value, whose generated `encode` method
(lines 282-317) writes that type's own 8-byte fingerprint and then its
members. -/
def encodeOne (env : List LcmStruct) : Nat → String → DartValue → Option (List Nat)
  | 0, _, _ => none
  | fuel + 1, tn, v =>
    if tn = "byte" then
      match v with | .vint n => some (intBytes 1 n) | _ => none
    else if tn = "int8_t" then
      match v with | .vint n => some (intBytes 1 n) | _ => none
    else if tn = "int16_t" then
      match v with | .vint n => some (intBytes 2 n) | _ => none
    else if tn = "int32_t" then
      match v with | .vint n => some (intBytes 4 n) | _ => none
    else if tn = "int64_t" then
      match v with | .vint n => some (intBytes 8 n) | _ => none
    else if tn = "float" then
      match v with | .vfloat b => some (beBytes 4 b) | _ => none
    else if tn = "double" then
      match v with | .vdouble b => some (beBytes 8 b) | _ => none
    else if tn = "string" then
      match v with
      | .vstring bs => some (beBytes 4 (bs.length + 1) ++ bs ++ [0])
      | _ => none
    else if tn = "boolean" then
      match v with | .vbool b => some [if b then 1 else 0] | _ => none
    else
      match v with
      | .vstruct name fields =>
        match lookupStruct env name with
        | some ls =>
          (encodeMembers (fun tn2 v2 => encodeOne env fuel tn2 v2)
              (mkScope ls.members fields) ls.members fields).map
            (fun bs => beBytes 8 (fingerprint ls.hash) ++ bs)
        | none => none
      | _ => none

/-- Semantics of a generated `encode` method (`emit_struct` lines
282-317): `buf.putInt64(LCM_FINGERPRINT)` first (8 bytes, the
transformed hash), then the members in declared order. -/
def encodeStructV (env : List LcmStruct) (fuel : Nat) (ls : LcmStruct)
    (fields : List DartValue) : Option (List Nat) :=
  (encodeMembers (fun tn v => encodeOne env fuel tn v) (mkScope ls.members fields)
      ls.members fields).map
    (fun bs => beBytes 8 (fingerprint ls.hash) ++ bs)

/-! ## Decode semantics (the Dart emitted by `emit_struct`, lines 320-420) -/

/-- Failure of a generated `decode`: the explicit
`throw Exception('Invalid fingerprint')` (line 324) is `typeMismatch`;
every other runtime throw of the generated code or the buffer
(underrun, negative length, unknown type) is `fail`. -/
inductive DecodeErr
  | typeMismatch
  | fail
deriving DecidableEq

/-- Sequential decode of `n` array elements (the semantics of one
`List.generate(n, ...)` level, whose generator runs for indices
`0..n-1` in order). -/
def decodeRep (dec : List Nat → Except DecodeErr (DartValue × List Nat)) :
    Nat → List Nat → Except DecodeErr (List DartValue × List Nat)
  | 0, s => .ok ([], s)
  | k + 1, s =>
    match dec s with
    | .error e => .error e
    | .ok (v, s1) =>
      match decodeRep dec k s1 with
      | .error e => .error e
      | .ok (vs, s2) => .ok (v :: vs, s2)

/-- Semantics of the nested `List.generate` expression emitted for an
array member (`emit_struct` lines 361-408): outermost dimension first,
each level bounded by its dimension (literal or already-decoded
sibling), elements read in row-major order with no length framing.
Dart's `List.generate` throws on a negative length. -/
def decodeDims (scope : List (String × DartValue))
    (dec : List Nat → Except DecodeErr (DartValue × List Nat)) :
    List DimSize → List Nat → Except DecodeErr (DartValue × List Nat)
  | [], s => dec s
  | d :: ds, s =>
    match dimBound scope d with
    | some n =>
      if n < 0 then .error .fail
      else
        (decodeRep (fun s2 => decodeDims scope dec ds s2) n.toNat s).map
          (fun p => (.varr p.1, p.2))
    | none => .error .fail

/-- Member-by-member decode of a struct body in declared order
(`emit_struct` loop at line 329): each decoded member becomes a `final`
local, in scope for the variable dimensions of later members. -/
def decodeMembers (decOne : String → List Nat → Except DecodeErr (DartValue × List Nat)) :
    List LcmMember → List (String × DartValue) → List Nat →
    Except DecodeErr (List DartValue × List Nat)
  | [], _, s => .ok ([], s)
  | m :: ms, locals, s =>
    match decodeDims locals (decOne m.lctypename) m.dimensions s with
    | .error e => .error e
    | .ok (v, s1) =>
      match decodeMembers decOne ms ((m.membername, v) :: locals) s1 with
      | .error e => .error e
      | .ok (vs, s2) => .ok (v :: vs, s2)

/-- Scalar/element decode semantics, one branch per type-name branch of
the decode emission (`emit_struct` lines 334-360 for scalars, 378-403
for array elements; the same dispatch as `emit_decode_one`).  The final
branch is the struct-reference case `T.decode(buf)`: the referenced
type's static `decode` reads and checks that type's own 8-byte
fingerprint (lines 321-326) and then its members, constructing the
instance only after all of them (lines 414-419). -/
def decodeOne (env : List LcmStruct) :
    Nat → String → List Nat → Except DecodeErr (DartValue × List Nat)
  | 0, _, _ => .error .fail
  | fuel + 1, tn, s =>
    if tn = "byte" then
      match readN 1 s with
      | some (bs, r) => .ok (.vint (beVal bs), r)
      | none => .error .fail
    else if tn = "int8_t" then
      match readN 1 s with
      | some (bs, r) => .ok (.vint (sIntVal 1 (beVal bs)), r)
      | none => .error .fail
    else if tn = "int16_t" then
      match readN 2 s with
      | some (bs, r) => .ok (.vint (sIntVal 2 (beVal bs)), r)
      | none => .error .fail
    else if tn = "int32_t" then
      match readN 4 s with
      | some (bs, r) => .ok (.vint (sIntVal 4 (beVal bs)), r)
      | none => .error .fail
    else if tn = "int64_t" then
      match readN 8 s with
      | some (bs, r) => .ok (.vint (sIntVal 8 (beVal bs)), r)
      | none => .error .fail
    else if tn = "float" then
      match readN 4 s with
      | some (bs, r) => .ok (.vfloat (beVal bs), r)
      | none => .error .fail
    else if tn = "double" then
      match readN 8 s with
      | some (bs, r) => .ok (.vdouble (beVal bs), r)
      | none => .error .fail
    else if tn = "string" then
      match readN 4 s with
      | some (lb, r1) =>
        match beVal lb with
        | 0 => .error .fail
        | len + 1 =>
          match readN len r1 with
          | some (bs, r2) =>
            match readN 1 r2 with
            | some (_, r3) => .ok (.vstring bs, r3)
            | none => .error .fail
          | none => .error .fail
      | none => .error .fail
    else if tn = "boolean" then
      match readN 1 s with
      | some (bs, r) => .ok (.vbool (beVal bs != 0), r)
      | none => .error .fail
    else
      match lookupStruct env tn with
      | some ls =>
        match readN 8 s with
        | some (fp, rest) =>
          if beVal fp = fingerprint ls.hash then
            (decodeMembers (fun tn2 s2 => decodeOne env fuel tn2 s2) ls.members [] rest).map
              (fun p => (.vstruct ls.shortname p.1, p.2))
          else .error .typeMismatch
        | none => .error .fail
      | none => .error .fail

/-- Semantics of a generated static `decode` method (`emit_struct`
lines 320-420): read 8 bytes as the incoming fingerprint, compare with
`LCM_FINGERPRINT`, throw on mismatch before reading anything else,
otherwise decode the members in declared order and construct the
instance from all of them at the end. -/
def decodeStruct (env : List LcmStruct) (fuel : Nat) (ls : LcmStruct) (s : List Nat) :
    Except DecodeErr (DartValue × List Nat) :=
  match readN 8 s with
  | some (fp, rest) =>
    if beVal fp = fingerprint ls.hash then
      (decodeMembers (fun tn2 s2 => decodeOne env fuel tn2 s2) ls.members [] rest).map
        (fun p => (.vstruct ls.shortname p.1, p.2))
    else .error .typeMismatch
  | none => .error .fail

/-! ## Text layer: the generator's own string computations -/

/-- Byte values of a Lean string literal, for embedding the C `char*`
constants and name transforms byte-for-byte. -/
def strBytes (s : String) : List Nat := s.data.map Char.toNat

/-- ASCII `toupper` as the C library computes it for the default
locale: lowercase letters lose 32, everything else is unchanged. -/
def c_toupper (c : Nat) : Nat := if 97 ≤ c ∧ c ≤ 122 then c - 32 else c

/-- Body loop of `to_pascal_case` (lines 51-71): underscores (byte 95)
are dropped and set the capitalize flag; a character under the flag is
emitted uppercased; the flag starts set (first character capitalized). -/
def pascalGo : List Nat → Bool → List Nat
  | [], _ => []
  | c :: rest, cap =>
    if c = 95 then pascalGo rest true
    else if cap then c_toupper c :: pascalGo rest false
    else c :: pascalGo rest false

/-- Embedding of `to_pascal_case` (lines 51-71): snake_case to
PascalCase on the byte level. -/
def to_pascal_case (s : List Nat) : List Nat := pascalGo s true

/-- Embedding of `dots_to_slashes` (lines 39-48): each `.` (46) becomes
the directory separator `/` (47). -/
def dots_to_slashes (s : List Nat) : List Nat :=
  s.map (fun c => if c = 46 then 47 else c)

/-- Output path built by `emit_dart` (lines 440-443):
`"%s%s%s%s%s.g.dart"` with the root, a `/` when the root is nonempty,
the package as directories, a `/` when the package is nonempty, and the
raw short name. -/
def outputPath (dartPath pkg shortname : List Nat) : List Nat :=
  dartPath ++ (if dartPath.length > 0 then strBytes "/" else []) ++
    dots_to_slashes pkg ++ (if (dots_to_slashes pkg).length > 0 then strBytes "/" else []) ++
    shortname ++ strBytes ".g.dart"

/-- Embedding of `map_type_dart` (lines 102-124): the nine primitive
type names map to Dart host types; any other name is returned
unchanged. -/
def map_type_dart (tn : List Nat) : List Nat :=
  if tn = strBytes "int8_t" then strBytes "int"
  else if tn = strBytes "int16_t" then strBytes "int"
  else if tn = strBytes "int32_t" then strBytes "int"
  else if tn = strBytes "int64_t" then strBytes "int"
  else if tn = strBytes "byte" then strBytes "int"
  else if tn = strBytes "float" then strBytes "double"
  else if tn = strBytes "double" then strBytes "double"
  else if tn = strBytes "string" then strBytes "String"
  else if tn = strBytes "boolean" then strBytes "bool"
  else tn

/-- Statement lines written by `emit_encode_one` (lines 143-171) for a
type name and accessor text, without indentation. -/
def emitEncodeOne (tn accessor : List Nat) : List (List Nat) :=
  if tn = strBytes "byte" then
    [strBytes "buf.putUint8(" ++ accessor ++ strBytes ");"]
  else if tn = strBytes "int8_t" then
    [strBytes "buf.putInt8(" ++ accessor ++ strBytes ");"]
  else if tn = strBytes "int16_t" then
    [strBytes "buf.putInt16(" ++ accessor ++ strBytes ");"]
  else if tn = strBytes "int32_t" then
    [strBytes "buf.putInt32(" ++ accessor ++ strBytes ");"]
  else if tn = strBytes "int64_t" then
    [strBytes "buf.putInt64(" ++ accessor ++ strBytes ");"]
  else if tn = strBytes "float" then
    [strBytes "buf.putFloat32(" ++ accessor ++ strBytes ");"]
  else if tn = strBytes "double" then
    [strBytes "buf.putFloat64(" ++ accessor ++ strBytes ");"]
  else if tn = strBytes "string" then
    [strBytes "\x7b",
     strBytes "final bytes = utf8.encode(" ++ accessor ++ strBytes ");",
     strBytes "buf.putUint32(bytes.length + 1);",
     strBytes "buf.putUint8List(bytes);",
     strBytes "buf.putUint8(0);",
     strBytes "\x7d"]
  else if tn = strBytes "boolean" then
    [strBytes "buf.putUint8(" ++ accessor ++ strBytes " ? 1 : 0);"]
  else
    [accessor ++ strBytes ".encode(buf);"]

/-- Statement lines written by `emit_decode_one` (lines 173-201) for a
type name and accessor text, without indentation. -/
def emitDecodeOne (tn accessor : List Nat) : List (List Nat) :=
  if tn = strBytes "byte" then
    [accessor ++ strBytes "buf.getUint8();"]
  else if tn = strBytes "int8_t" then
    [accessor ++ strBytes "buf.getInt8();"]
  else if tn = strBytes "int16_t" then
    [accessor ++ strBytes "buf.getInt16();"]
  else if tn = strBytes "int32_t" then
    [accessor ++ strBytes "buf.getInt32();"]
  else if tn = strBytes "int64_t" then
    [accessor ++ strBytes "buf.getInt64();"]
  else if tn = strBytes "float" then
    [accessor ++ strBytes "buf.getFloat32();"]
  else if tn = strBytes "double" then
    [accessor ++ strBytes "buf.getFloat64();"]
  else if tn = strBytes "string" then
    [strBytes "\x7b",
     strBytes "final len = buf.getUint32();",
     strBytes "final bytes = buf.getUint8List(len - 1);",
     strBytes "buf.getUint8(); // null terminator",
     accessor ++ strBytes "utf8.decode(bytes);",
     strBytes "\x7d"]
  else if tn = strBytes "boolean" then
    [accessor ++ strBytes "buf.getUint8() != 0;"]
  else
    [accessor ++ map_type_dart tn ++ strBytes ".decode(buf);"]

/-- Class identifier emitted for a struct (`emit_struct` line 222). -/
def emittedClassName (ls : LcmStruct) : List Nat :=
  to_pascal_case (strBytes ls.shortname)

/-- The nine primitive type-name strings recognized by the emitter's
dispatch; anything else falls through to the struct-reference branch. -/
def primitiveNames : List String :=
  ["byte", "int8_t", "int16_t", "int32_t", "int64_t",
   "float", "double", "string", "boolean"]

/-! ## Emitter driver (`emit_dart`, lines 429-461) -/

/-- External collaborators of `emit_dart`, as oracles keyed by output
path: whether `fopen(path, "w")` succeeds in `emit_struct` (line 205),
and the `lcm_needs_generation` incremental-skip decision (line 448). -/
structure EmitEnv where
  ioOk : List Nat → Bool
  needsGen : List Nat → Bool

/-- Return status of one `emit_struct` call (lines 203-427): `-1` when
the output unit cannot be opened, `0` otherwise (no other failure is
checked). -/
def emitStructStatus (env : EmitEnv) (path : List Nat) : Int :=
  if env.ioOk path then 0 else -1

/-- Output path of a struct under a root, as `emit_dart` builds it. -/
def pathFor (dartPath : List Nat) (ls : LcmStruct) : List Nat :=
  outputPath dartPath (strBytes ls.package) (strBytes ls.shortname)

/-- Loop body of `emit_dart` (lines 437-458): skip a struct whose
output is current, otherwise run `emit_struct` and return its nonzero
status immediately; on success record the written path and continue.
The result is the returned status and the list of output units
written, in order. -/
def emitDartLoop (env : EmitEnv) (dartPath : List Nat) :
    List LcmStruct → Int × List (List Nat)
  | [] => (0, [])
  | ls :: rest =>
    if ¬ env.needsGen (pathFor dartPath ls) then emitDartLoop env dartPath rest
    else if emitStructStatus env (pathFor dartPath ls) = 0 then
      let r := emitDartLoop env dartPath rest
      (r.1, pathFor dartPath ls :: r.2)
    else (emitStructStatus env (pathFor dartPath ls), [])

/-- Embedding of `emit_dart` (lines 429-461), including the default of
`"."` for an empty `--dart-path` option (lines 431-433). -/
def emit_dart (env : EmitEnv) (dartPathOpt : List Nat) (structs : List LcmStruct) :
    Int × List (List Nat) :=
  emitDartLoop env (if dartPathOpt.length = 0 then strBytes "." else dartPathOpt) structs

/-- Output units written by a run in which every attempted struct
succeeds: the paths of the structs that need generation, in order. -/
def writtenPaths (env : EmitEnv) (dartPath : List Nat) : List LcmStruct → List (List Nat)
  | [] => []
  | ls :: rest =>
    if env.needsGen (pathFor dartPath ls) then
      pathFor dartPath ls :: writtenPaths env dartPath rest
    else writtenPaths env dartPath rest

/-! ## Sample schemas used by witnesses and counterexamples -/

/-- Sample nested message type: `struct inner_t \x7b int8_t x; \x7d` with
structural hash pattern 1. -/
def demoInner : LcmStruct := ⟨"pkg", "inner_t", 1, [⟨"x", "int8_t", []⟩], []⟩

/-- Sample parent message type holding one `inner_t` member, hash
pattern 2. -/
def demoOuter : LcmStruct := ⟨"pkg", "outer_t", 2, [⟨"a", "inner_t", []⟩], []⟩

/-- Schema environment with the two sample types. -/
def demoEnv : List LcmStruct := [demoInner, demoOuter]

/-- Sample schema with a variable-length array: `int32_t n;` followed by
`int32_t data[n];`, parameterized by the structural hash pattern. -/
def sVarray (h : Nat) : LcmStruct :=
  ⟨"", "varray_t", h, [⟨"n", "int32_t", []⟩, ⟨"data", "int32_t", [.var "n"]⟩], []⟩

/-- Oracle environment in which every output path needs generation and
no output file can be opened. -/
def failEnv : EmitEnv := ⟨fun _ => false, fun _ => true⟩

/-! ## Helper lemmas -/

theorem beBytes_length (w n : Nat) : (beBytes w n).length = w := by
  induction w generalizing n with
  | zero => rfl
  | succ w ih => simp [beBytes, ih]

theorem beVal_beBytes (w n : Nat) : beVal (beBytes w n) = n % 2 ^ (8 * w) := by
  induction w generalizing n with
  | zero => simp [beBytes, beVal, Nat.mod_one]
  | succ w ih =>
    have h256 : (256 : Nat) ^ w = 2 ^ (8 * w) := by
      rw [show (256 : Nat) = 2 ^ 8 by norm_num, ← pow_mul]
    have hmul : (2 : Nat) ^ (8 * (w + 1)) = 2 ^ (8 * w) * 256 := by
      rw [Nat.mul_succ, pow_add]; norm_num
    have hmm : n % 2 ^ (8 * w) % 2 ^ (8 * w) = n % 2 ^ (8 * w) :=
      Nat.mod_eq_of_lt (Nat.mod_lt _ (by positivity))
    rw [beBytes, beVal, beBytes_length, ih, h256, hmul, Nat.mod_mul, hmm]
    ring

theorem beVal_beBytes_of_lt {w n : Nat} (h : n < 2 ^ (8 * w)) :
    beVal (beBytes w n) = n := by
  rw [beVal_beBytes, Nat.mod_eq_of_lt h]

theorem readN_append {n : Nat} {xs : List Nat} (rest : List Nat) (h : xs.length = n) :
    readN n (xs ++ rest) = some (xs, rest) := by
  induction xs generalizing n with
  | nil => subst h; rfl
  | cons a as ih => subst h; simp [List.length_cons, readN, ih rfl]

theorem intBytes_length (w : Nat) (n : Int) : (intBytes w n).length = w := by
  simp [intBytes, beBytes_length]

theorem fingerprint_lt (h : Nat) : fingerprint h < 2 ^ 64 :=
  Nat.mod_lt _ (by norm_num)

theorem sIntVal_intBytes {w : Nat} (hw : 1 ≤ w) {n : Int}
    (h1 : -(2 ^ (8 * w - 1)) ≤ n) (h2 : n < 2 ^ (8 * w - 1)) :
    sIntVal w (beVal (intBytes w n)) = n := by
  have hsplit : 8 * w - 1 + 1 = 8 * w := by omega
  have hcastB : ((2 ^ (8 * w) : Nat) : Int) = 2 ^ (8 * w) := by push_cast; ring
  have hcastH : ((2 ^ (8 * w - 1) : Nat) : Int) = 2 ^ (8 * w - 1) := by push_cast; ring
  have hBH : (2 : Int) ^ (8 * w) = 2 ^ (8 * w - 1) * 2 := by rw [← pow_succ, hsplit]
  have hpos : (0 : Int) < 2 ^ (8 * w) := by positivity
  have hr0 : 0 ≤ n % 2 ^ (8 * w) := Int.emod_nonneg n (by positivity)
  have hr1 : n % 2 ^ (8 * w) < 2 ^ (8 * w) := Int.emod_lt_of_pos n hpos
  have htn : (((n % 2 ^ (8 * w)).toNat : Nat) : Int) = n % 2 ^ (8 * w) :=
    Int.toNat_of_nonneg hr0
  have hlt : (n % 2 ^ (8 * w)).toNat < 2 ^ (8 * w) := by omega
  have hval : beVal (intBytes w n) = (n % 2 ^ (8 * w)).toNat := by
    rw [intBytes]; exact beVal_beBytes_of_lt hlt
  have hcases : n % 2 ^ (8 * w) = n ∨ n % 2 ^ (8 * w) = n + 2 ^ (8 * w) := by
    rcases le_or_lt 0 n with hn | hn
    · left; exact Int.emod_eq_of_lt hn (by omega)
    · right
      have hself : (n + 2 ^ (8 * w) * 1) % 2 ^ (8 * w) = n % 2 ^ (8 * w) :=
        Int.add_mul_emod_self_left n (2 ^ (8 * w)) 1
      rw [mul_one] at hself
      rw [← hself, Int.emod_eq_of_lt (by omega) (by omega)]
  rw [hval, sIntVal]
  split
  · omega
  · omega

theorem two_mul_or_one (m : Nat) : 2 * m ||| 1 = 2 * m + 1 := by
  have h1 : (1 : Nat) = Nat.bit true 0 := rfl
  have h2 : 2 * m = Nat.bit false m := by simp [Nat.bit]
  rw [h2, h1, Nat.lor_bit]
  simp [Nat.bit]

theorem two_mul_or_bit (m b : Nat) (hb : b < 2) : 2 * m ||| b = 2 * m + b := by
  interval_cases b
  · simp
  · exact two_mul_or_one m

theorem encodeOne_int32 (env : List LcmStruct) (fuel : Nat) (a : Int) :
    encodeOne env (fuel + 1) "int32_t" (.vint a) = some (intBytes 4 a) := by
  simp [encodeOne]

theorem decodeOne_int32 (env : List LcmStruct) (fuel : Nat) {a : Int}
    (h1 : -(2 ^ 31) ≤ a) (h2 : a < 2 ^ 31) (r : List Nat) :
    decodeOne env (fuel + 1) "int32_t" (intBytes 4 a ++ r) = .ok (.vint a, r) := by
  have hs : sIntVal 4 (beVal (intBytes 4 a)) = a :=
    sIntVal_intBytes (by norm_num) (by norm_num; omega) (by norm_num; omega)
  rw [decodeOne]
  simp [readN_append _ (intBytes_length 4 a), hs]

theorem decodeMembers_ok_length
    (decOne : String → List Nat → Except DecodeErr (DartValue × List Nat)) :
    ∀ (ms : List LcmMember) (locals : List (String × DartValue)) (s : List Nat)
      (vs : List DartValue) (r : List Nat),
      decodeMembers decOne ms locals s = .ok (vs, r) → vs.length = ms.length := by
  intro ms
  induction ms with
  | nil =>
    intro locals s vs r h
    simp [decodeMembers] at h
    simp [h.1]
  | cons m ms ih =>
    intro locals s vs r h
    rw [decodeMembers] at h
    split at h
    · exact absurd h (by simp)
    · split at h
      · exact absurd h (by simp)
      · rename_i v s1 hd vs2 s2 hm
        simp at h
        have := ih _ _ _ _ hm
        simp [← h.1, this]

theorem encodeMembers_chunks
    (encOne : String → DartValue → Option (List Nat))
    (scope : List (String × DartValue)) :
    ∀ (ms : List LcmMember) (vs : List DartValue) (bs : List Nat),
      encodeMembers encOne scope ms vs = some bs →
      ∃ chunks : List (List Nat),
        List.Forall₂
          (fun (p : LcmMember × DartValue) c =>
            encodeDims scope (encOne p.1.lctypename) p.1.dimensions p.2 = some c)
          (ms.zip vs) chunks
        ∧ bs = chunks.flatten ∧ vs.length = ms.length := by
  intro ms
  induction ms with
  | nil =>
    intro vs bs h
    match vs with
    | [] =>
      simp [encodeMembers] at h
      exact ⟨[], by simp, by simp [← h], rfl⟩
    | v :: vs => simp [encodeMembers] at h
  | cons m ms ih =>
    intro vs bs h
    match vs with
    | [] => simp [encodeMembers] at h
    | v :: vs =>
      rw [encodeMembers] at h
      split at h
      · exact absurd h (by simp)
      · rename_i b hb
        split at h
        · exact absurd h (by simp)
        · rename_i rest hrest
          simp at h
          obtain ⟨chunks, hf, hflat, hlen⟩ := ih vs rest hrest
          exact ⟨b :: chunks, by simp [List.forall₂_cons, hb, hf],
            by simp [← h, hflat], by simp [hlen]⟩

theorem pascalGo_length_le : ∀ (l : List Nat) (cap : Bool),
    (pascalGo l cap).length ≤ l.length := by
  intro l
  induction l with
  | nil => intro cap; simp [pascalGo]
  | cons c rest ih =>
    intro cap
    rw [pascalGo]
    split
    · have := ih true; simp; omega
    · split <;> · simp [List.length_cons]; have := ih false; omega

theorem pascalGo_length_lt : ∀ (l : List Nat), 95 ∈ l → ∀ cap : Bool,
    (pascalGo l cap).length < l.length := by
  intro l
  induction l with
  | nil => intro h; simp at h
  | cons c rest ih =>
    intro h cap
    rw [pascalGo]
    by_cases hc : c = 95
    · simp only [hc, if_pos rfl]
      have := pascalGo_length_le rest true
      simp
      omega
    · have hm : 95 ∈ rest := by
        rcases List.mem_cons.mp h with h1 | h1
        · exact absurd h1.symm hc
        · exact h1
      simp only [if_neg hc]
      split <;> · simp [List.length_cons]; exact ih hm false

/-! ## Per-case equation lemmas

Unfolding lemmas for the recursive codec functions, one per defining
case.  Rewriting with these (instead of the definitions themselves)
keeps every unfolding step conditional on the shape of the list or
counter argument. -/

theorem encodeElems_nil (enc : DartValue → Option (List Nat)) :
    encodeElems enc [] = some [] := rfl

theorem encodeElems_cons (enc : DartValue → Option (List Nat)) (v : DartValue)
    (vs : List DartValue) :
    encodeElems enc (v :: vs) =
      match enc v with
      | none => none
      | some b =>
        match encodeElems enc vs with
        | none => none
        | some rest => some (b ++ rest) := rfl

theorem encodeDims_nil (scope : List (String × DartValue))
    (enc : DartValue → Option (List Nat)) (v : DartValue) :
    encodeDims scope enc [] v = enc v := rfl

theorem encodeDims_cons (scope : List (String × DartValue))
    (enc : DartValue → Option (List Nat)) (d : DimSize) (ds : List DimSize)
    (v : DartValue) :
    encodeDims scope enc (d :: ds) v =
      match v with
      | .varr elems =>
        match dimBound scope d with
        | some n =>
          (takeExact n.toNat elems).bind fun sel =>
            encodeElems (fun e => encodeDims scope enc ds e) sel
        | none => none
      | _ => none := rfl

theorem encodeMembers_nil (encOne : String → DartValue → Option (List Nat))
    (scope : List (String × DartValue)) :
    encodeMembers encOne scope [] [] = some [] := rfl

theorem encodeMembers_cons (encOne : String → DartValue → Option (List Nat))
    (scope : List (String × DartValue)) (m : LcmMember) (ms : List LcmMember)
    (v : DartValue) (vs : List DartValue) :
    encodeMembers encOne scope (m :: ms) (v :: vs) =
      match encodeDims scope (encOne m.lctypename) m.dimensions v with
      | none => none
      | some b =>
        match encodeMembers encOne scope ms vs with
        | none => none
        | some rest => some (b ++ rest) := rfl

theorem decodeRep_zero (dec : List Nat → Except DecodeErr (DartValue × List Nat))
    (s : List Nat) : decodeRep dec 0 s = .ok ([], s) := rfl

theorem decodeRep_succ (dec : List Nat → Except DecodeErr (DartValue × List Nat))
    (k : Nat) (s : List Nat) :
    decodeRep dec (k + 1) s =
      match dec s with
      | .error e => .error e
      | .ok (v, s1) =>
        match decodeRep dec k s1 with
        | .error e => .error e
        | .ok (vs, s2) => .ok (v :: vs, s2) := rfl

theorem decodeDims_nil (scope : List (String × DartValue))
    (dec : List Nat → Except DecodeErr (DartValue × List Nat)) (s : List Nat) :
    decodeDims scope dec [] s = dec s := rfl

theorem decodeDims_cons (scope : List (String × DartValue))
    (dec : List Nat → Except DecodeErr (DartValue × List Nat)) (d : DimSize)
    (ds : List DimSize) (s : List Nat) :
    decodeDims scope dec (d :: ds) s =
      match dimBound scope d with
      | some n =>
        if n < 0 then .error .fail
        else
          (decodeRep (fun s2 => decodeDims scope dec ds s2) n.toNat s).map
            (fun p => (.varr p.1, p.2))
      | none => .error .fail := rfl

theorem decodeMembers_nil
    (decOne : String → List Nat → Except DecodeErr (DartValue × List Nat))
    (locals : List (String × DartValue)) (s : List Nat) :
    decodeMembers decOne [] locals s = .ok ([], s) := rfl

theorem decodeMembers_cons
    (decOne : String → List Nat → Except DecodeErr (DartValue × List Nat))
    (m : LcmMember) (ms : List LcmMember) (locals : List (String × DartValue))
    (s : List Nat) :
    decodeMembers decOne (m :: ms) locals s =
      match decodeDims locals (decOne m.lctypename) m.dimensions s with
      | .error e => .error e
      | .ok (v, s1) =>
        match decodeMembers decOne ms ((m.membername, v) :: locals) s1 with
        | .error e => .error e
        | .ok (vs, s2) => .ok (v :: vs, s2) := rfl

/-! ## Codec shape of the variable-length-array sample schema

Both lemmas work over opaque per-field byte chunks, so that the claim
about `sVarray` follows by instantiating them with the concrete
`int32_t` chunk encodings. -/

theorem decodeStruct_sVarray_aux (env : List LcmStruct) (fuel h : Nat)
    (fp8 b3 p0 p1 p2 rest : List Nat) (v0 v1 v2 : DartValue)
    (hlen : fp8.length = 8)
    (hfp : beVal fp8 = fingerprint h)
    (hn : decodeOne env fuel "int32_t" (b3 ++ (p0 ++ (p1 ++ (p2 ++ rest))))
        = .ok (.vint 3, p0 ++ (p1 ++ (p2 ++ rest))))
    (h0 : decodeOne env fuel "int32_t" (p0 ++ (p1 ++ (p2 ++ rest)))
        = .ok (v0, p1 ++ (p2 ++ rest)))
    (h1 : decodeOne env fuel "int32_t" (p1 ++ (p2 ++ rest)) = .ok (v1, p2 ++ rest))
    (h2 : decodeOne env fuel "int32_t" (p2 ++ rest) = .ok (v2, rest)) :
    decodeStruct env fuel (sVarray h) (fp8 ++ (b3 ++ (p0 ++ (p1 ++ (p2 ++ rest)))))
      = .ok (.vstruct "varray_t" [.vint 3, .varr [v0, v1, v2]], rest) := by
  rw [decodeStruct, readN_append _ hlen]
  dsimp only [sVarray]
  rw [if_pos hfp]
  simp only [decodeMembers_cons, decodeMembers_nil, decodeDims_nil, decodeDims_cons,
    decodeRep_succ, decodeRep_zero, dimBound, lookupLocal, Except.map,
    String.reduceEq, reduceIte, Int.reduceLT, Int.reduceToNat, hn, h0, h1, h2]

theorem encodeStructV_sVarray_aux (env : List LcmStruct) (fuel h : Nat)
    (b3 p0 p1 p2 : List Nat) (x0 x1 x2 : DartValue)
    (hn : encodeOne env fuel "int32_t" (.vint 3) = some b3)
    (h0 : encodeOne env fuel "int32_t" x0 = some p0)
    (h1 : encodeOne env fuel "int32_t" x1 = some p1)
    (h2 : encodeOne env fuel "int32_t" x2 = some p2) :
    encodeStructV env fuel (sVarray h) [.vint 3, .varr [x0, x1, x2]]
      = some (beBytes 8 (fingerprint h) ++ b3 ++ p0 ++ p1 ++ p2) := by
  dsimp only [sVarray, encodeStructV, mkScope]
  simp only [encodeMembers_cons, encodeMembers_nil, encodeDims_nil, encodeDims_cons,
    encodeElems_cons, encodeElems_nil, dimBound, lookupLocal,
    List.zip_cons_cons, List.zip_nil_right, List.map_cons, List.map_nil,
    String.reduceEq, reduceIte, Int.reduceLT, Int.reduceToNat, takeExact,
    Option.map_some, Option.map_some', Option.bind_some, Option.some_bind,
    hn, h0, h1, h2, List.append_assoc, List.append_nil]

/-! ## Claim theorems -/

/-- C1 (counterexample): the claim that the 8-byte fingerprint appears
on the wire only at the top level is false on the code.  Encoding an
`outer_t` holding one nested `inner_t x = 5` produces 17 bytes — the
outer fingerprint, then the *inner type's own fingerprint*, then the
member byte — not the 9 bytes (outer fingerprint directly followed by
the member encoding) the claim predicts, because the nested
`accessor.encode(buf)` call runs the inner type's full `encode`, which
begins with `buf.putInt64(LCM_FINGERPRINT)`. -/
theorem c1_claim_counterexample :
    encodeStructV demoEnv 2 demoOuter [.vstruct "inner_t" [.vint 5]]
      = some (beBytes 8 (fingerprint 2) ++ beBytes 8 (fingerprint 1) ++ intBytes 1 5)
    ∧ encodeStructV demoEnv 2 demoOuter [.vstruct "inner_t" [.vint 5]]
      ≠ some (beBytes 8 (fingerprint 2) ++ intBytes 1 5) :=
  ⟨by decide, by decide⟩

/-- C1 (amended): for a struct-typed scalar member, the generated
encode calls the referenced type's `encode` at the current stream
position with no length prefix — but that nested `encode` *does*
re-emit the referenced type's own 8-byte fingerprint before its member
encodings; the fingerprint is not exclusive to the top level. -/
theorem c1_nested_struct_encode (env : List LcmStruct) (fuel : Nat) (tn name : String)
    (fields : List DartValue) (ls : LcmStruct)
    (hp : tn ∉ primitiveNames) (hl : lookupStruct env name = some ls) :
    encodeOne env (fuel + 1) tn (.vstruct name fields) = encodeStructV env fuel ls fields
    ∧ encodeStructV env fuel ls fields =
        (encodeMembers (fun tn2 v2 => encodeOne env fuel tn2 v2)
            (mkScope ls.members fields) ls.members fields).map
          (fun bs => beBytes 8 (fingerprint ls.hash) ++ bs) := by
  simp [primitiveNames] at hp
  obtain ⟨n1, n2, n3, n4, n5, n6, n7, n8, n9⟩ := hp
  refine ⟨?_, rfl⟩
  rw [encodeOne]
  simp [n1, n2, n3, n4, n5, n6, n7, n8, n9, hl, encodeStructV]

/-- Witness for C1 (amended): the nested `inner_t` member of the sample
environment, at fuel 1. -/
theorem c1_nested_struct_encode_witness :
    encodeOne demoEnv 2 "inner_t" (.vstruct "inner_t" [.vint 5])
      = encodeStructV demoEnv 1 demoInner [.vint 5]
    ∧ encodeStructV demoEnv 1 demoInner [.vint 5] =
        (encodeMembers (fun tn2 v2 => encodeOne demoEnv 1 tn2 v2)
            (mkScope demoInner.members [.vint 5]) demoInner.members [.vint 5]).map
          (fun bs => beBytes 8 (fingerprint demoInner.hash) ++ bs) :=
  c1_nested_struct_encode demoEnv 1 "inner_t" "inner_t" [.vint 5] demoInner
    (by decide) (by decide)

/-- C2: a generated `decode` reads 8 bytes and compares them with the
type's transformed fingerprint; on mismatch it fails as a type mismatch
for *every* possible remainder of the buffer (so no member is read); on
match it is exactly the member-by-member decode in declared order,
wrapped into an instance; and any successful decode returns an instance
built from all of the members — never a partial one. -/
theorem c2_decode_fingerprint_gate (env : List LcmStruct) (fuel : Nat) (ls : LcmStruct)
    (fp8 : List Nat) (h8 : fp8.length = 8) :
    (beVal fp8 ≠ fingerprint ls.hash →
      ∀ junk, decodeStruct env fuel ls (fp8 ++ junk) = .error .typeMismatch)
    ∧ (beVal fp8 = fingerprint ls.hash → ∀ rest,
        decodeStruct env fuel ls (fp8 ++ rest) =
          (decodeMembers (fun tn2 s2 => decodeOne env fuel tn2 s2) ls.members [] rest).map
            (fun p => (DartValue.vstruct ls.shortname p.1, p.2)))
    ∧ (∀ s v r, decodeStruct env fuel ls s = .ok (v, r) →
        ∃ vs, v = .vstruct ls.shortname vs ∧ vs.length = ls.members.length) := by
  refine ⟨fun hne junk => ?_, fun heq rest => ?_, fun s v r h => ?_⟩
  · rw [decodeStruct, readN_append junk h8]
    simp [hne]
  · rw [decodeStruct, readN_append rest h8]
    simp [heq]
  · rw [decodeStruct] at h
    split at h
    · rename_i fp rest hr
      split at h
      · match hm : decodeMembers (fun tn2 s2 => decodeOne env fuel tn2 s2)
            ls.members [] rest with
        | .error e => rw [hm] at h; exact absurd h (by simp [Except.map])
        | .ok (vs, s2) =>
          rw [hm] at h
          simp [Except.map] at h
          exact ⟨vs, h.1.symm, decodeMembers_ok_length _ _ _ _ _ _ hm⟩
      · exact absurd h (by simp)
    · exact absurd h (by simp)

/-- Witness for C2: an 8-byte prefix with value 999 does not match
`inner_t`'s fingerprint (which is 2), so decode fails as a type
mismatch whatever follows. -/
theorem c2_decode_fingerprint_gate_witness :
    decodeStruct demoEnv 0 demoInner (beBytes 8 999 ++ [1, 2, 3]) = .error .typeMismatch :=
  (c2_decode_fingerprint_gate demoEnv 0 demoInner (beBytes 8 999) (by decide)).1
    (by decide) [1, 2, 3]

/-- C3: a string scalar encodes as `uint32(byteLength + 1)`, the raw
UTF-8 bytes, then one `0x00`; decoding that framing (with anything
after it) recovers exactly the original bytes and leaves the rest of
the stream untouched. -/
theorem c3_string_framing (env : List LcmStruct) (fuel : Nat) (bs rest : List Nat)
    (h : bs.length + 1 < 2 ^ 32) :
    encodeOne env (fuel + 1) "string" (.vstring bs)
      = some (beBytes 4 (bs.length + 1) ++ bs ++ [0])
    ∧ decodeOne env (fuel + 1) "string" ((beBytes 4 (bs.length + 1) ++ bs ++ [0]) ++ rest)
      = .ok (.vstring bs, rest) := by
  constructor
  · simp [encodeOne]
  · have hL : beVal (beBytes 4 (bs.length + 1)) = bs.length + 1 :=
      beVal_beBytes_of_lt (by norm_num; omega)
    have hstream : (beBytes 4 (bs.length + 1) ++ bs ++ [0]) ++ rest
        = beBytes 4 (bs.length + 1) ++ (bs ++ ((0 : Nat) :: rest)) := by
      simp
    rw [decodeOne, hstream]
    simp only [readN_append _ (beBytes_length 4 (bs.length + 1)), hL]
    have hb : readN bs.length (bs ++ (0 :: rest)) = some (bs, 0 :: rest) :=
      readN_append _ rfl
    simp [hb, readN]

/-- Witness for C3: encoding `"hi"` (UTF-8 bytes 104, 105) gives the 7
bytes `uint32(3), h, i, 0x00`, and decoding them returns the same
string with nothing left over. -/
theorem c3_string_framing_witness :
    encodeOne [] 1 "string" (.vstring [104, 105]) = some [0, 0, 0, 3, 104, 105, 0]
    ∧ decodeOne [] 1 "string" [0, 0, 0, 3, 104, 105, 0] = .ok (.vstring [104, 105], []) :=
  have h := c3_string_framing [] 0 [104, 105] [] (by decide)
  ⟨h.1, h.2⟩

/-- C4: for the fixed two-dimensional array `a[2][3]` of `int32_t`, the
emitted nested loops write exactly the six element encodings in
row-major order `a[0][0],a[0][1],a[0][2],a[1][0],a[1][1],a[1][2]` with
no length prefix anywhere, and the emitted nested `List.generate`
decode reads them back in the same order. -/
theorem c4_array_row_major (env : List LcmStruct) (fuel : Nat)
    (a00 a01 a02 a10 a11 a12 : Int) (rest : List Nat)
    (hlo : -(2 ^ 31) ≤ a00 ∧ -(2 ^ 31) ≤ a01 ∧ -(2 ^ 31) ≤ a02 ∧
           -(2 ^ 31) ≤ a10 ∧ -(2 ^ 31) ≤ a11 ∧ -(2 ^ 31) ≤ a12)
    (hhi : a00 < 2 ^ 31 ∧ a01 < 2 ^ 31 ∧ a02 < 2 ^ 31 ∧
           a10 < 2 ^ 31 ∧ a11 < 2 ^ 31 ∧ a12 < 2 ^ 31) :
    encodeDims [] (fun v => encodeOne env (fuel + 1) "int32_t" v) [.lit 2, .lit 3]
        (.varr [.varr [.vint a00, .vint a01, .vint a02],
                .varr [.vint a10, .vint a11, .vint a12]])
      = some (intBytes 4 a00 ++ intBytes 4 a01 ++ intBytes 4 a02 ++
              intBytes 4 a10 ++ intBytes 4 a11 ++ intBytes 4 a12)
    ∧ decodeDims [] (fun s => decodeOne env (fuel + 1) "int32_t" s) [.lit 2, .lit 3]
        (intBytes 4 a00 ++ intBytes 4 a01 ++ intBytes 4 a02 ++
         intBytes 4 a10 ++ intBytes 4 a11 ++ intBytes 4 a12 ++ rest)
      = .ok (.varr [.varr [.vint a00, .vint a01, .vint a02],
                    .varr [.vint a10, .vint a11, .vint a12]], rest) := by
  obtain ⟨l0, l1, l2, l3, l4, l5⟩ := hlo
  obtain ⟨u0, u1, u2, u3, u4, u5⟩ := hhi
  constructor
  · simp [encodeDims, encodeElems, dimBound, takeExact, encodeOne_int32]
  · have d0 := fun r => decodeOne_int32 env fuel l0 u0 r
    have d1 := fun r => decodeOne_int32 env fuel l1 u1 r
    have d2 := fun r => decodeOne_int32 env fuel l2 u2 r
    have d3 := fun r => decodeOne_int32 env fuel l3 u3 r
    have d4 := fun r => decodeOne_int32 env fuel l4 u4 r
    have d5 := fun r => decodeOne_int32 env fuel l5 u5 r
    simp [decodeDims, decodeRep, dimBound, Except.map, d0, d1, d2, d3, d4, d5]

/-- Witness for C4: the 2 by 3 matrix with entries 1..6 encodes to the
24 bytes of its entries in row-major order and decodes back. -/
theorem c4_array_row_major_witness :
    encodeDims [] (fun v => encodeOne [] 1 "int32_t" v) [.lit 2, .lit 3]
        (.varr [.varr [.vint 1, .vint 2, .vint 3], .varr [.vint 4, .vint 5, .vint 6]])
      = some [0, 0, 0, 1, 0, 0, 0, 2, 0, 0, 0, 3, 0, 0, 0, 4, 0, 0, 0, 5, 0, 0, 0, 6]
    ∧ decodeDims [] (fun s => decodeOne [] 1 "int32_t" s) [.lit 2, .lit 3]
        [0, 0, 0, 1, 0, 0, 0, 2, 0, 0, 0, 3, 0, 0, 0, 4, 0, 0, 0, 5, 0, 0, 0, 6]
      = .ok (.varr [.varr [.vint 1, .vint 2, .vint 3],
                    .varr [.vint 4, .vint 5, .vint 6]], []) :=
  have h := c4_array_row_major [] 0 1 2 3 4 5 6 [] (by decide) (by decide)
  ⟨h.1, h.2⟩

/-- C5: for the schema `int32_t n; int32_t data[n];` with `n = 3`, the
generated encode writes the fingerprint, then `n`'s own 4 bytes, then
exactly the three element encodings with no extra length marker; the
generated decode reads `n` first and then exactly `n` elements, using
the already-decoded local `n` as the generation bound. -/
theorem c5_variable_length_array (env : List LcmStruct) (fuel : Nat) (h : Nat)
    (d0 d1 d2 : Int) (rest : List Nat)
    (hlo : -(2 ^ 31) ≤ d0 ∧ -(2 ^ 31) ≤ d1 ∧ -(2 ^ 31) ≤ d2)
    (hhi : d0 < 2 ^ 31 ∧ d1 < 2 ^ 31 ∧ d2 < 2 ^ 31) :
    encodeStructV env (fuel + 1) (sVarray h)
        [.vint 3, .varr [.vint d0, .vint d1, .vint d2]]
      = some (beBytes 8 (fingerprint h) ++ intBytes 4 3 ++
              intBytes 4 d0 ++ intBytes 4 d1 ++ intBytes 4 d2)
    ∧ decodeStruct env (fuel + 1) (sVarray h)
        (beBytes 8 (fingerprint h) ++ intBytes 4 3 ++
         intBytes 4 d0 ++ intBytes 4 d1 ++ intBytes 4 d2 ++ rest)
      = .ok (.vstruct "varray_t" [.vint 3, .varr [.vint d0, .vint d1, .vint d2]], rest) := by
  obtain ⟨l0, l1, l2⟩ := hlo
  obtain ⟨u0, u1, u2⟩ := hhi
  constructor
  · exact encodeStructV_sVarray_aux env (fuel + 1) h (intBytes 4 3)
      (intBytes 4 d0) (intBytes 4 d1) (intBytes 4 d2)
      (.vint d0) (.vint d1) (.vint d2)
      (encodeOne_int32 env fuel 3) (encodeOne_int32 env fuel d0)
      (encodeOne_int32 env fuel d1) (encodeOne_int32 env fuel d2)
  · exact decodeStruct_sVarray_aux env (fuel + 1) h (beBytes 8 (fingerprint h))
      (intBytes 4 3) (intBytes 4 d0) (intBytes 4 d1) (intBytes 4 d2) rest
      (.vint d0) (.vint d1) (.vint d2)
      (beBytes_length 8 (fingerprint h)) (beVal_beBytes_of_lt (fingerprint_lt h))
      (decodeOne_int32 env fuel (by norm_num) (by norm_num) _)
      (decodeOne_int32 env fuel l0 u0 _) (decodeOne_int32 env fuel l1 u1 _)
      (decodeOne_int32 env fuel l2 u2 _)

/-- Witness for C5: `n = 3`, `data = [1, 2, 3]`, hash pattern 7
(fingerprint 14): 8 fingerprint bytes, 4 bytes of `n`, then 12 element
bytes and nothing else. -/
theorem c5_variable_length_array_witness :
    encodeStructV [] 1 (sVarray 7) [.vint 3, .varr [.vint 1, .vint 2, .vint 3]]
      = some [0, 0, 0, 0, 0, 0, 0, 14, 0, 0, 0, 3, 0, 0, 0, 1, 0, 0, 0, 2, 0, 0, 0, 3]
    ∧ decodeStruct [] 1 (sVarray 7)
        [0, 0, 0, 0, 0, 0, 0, 14, 0, 0, 0, 3, 0, 0, 0, 1, 0, 0, 0, 2, 0, 0, 0, 3]
      = .ok (.vstruct "varray_t" [.vint 3, .varr [.vint 1, .vint 2, .vint 3]], []) :=
  have h := c5_variable_length_array [] 0 7 1 2 3 [] (by decide) (by decide)
  ⟨h.1, h.2⟩

/-- C6: whenever a generated `encode` succeeds, the produced bytes are
exactly the type's 8-byte transformed fingerprint followed by one byte
chunk per member, in declared member order, concatenated with nothing
in between — no padding, alignment, or reordering. -/
theorem c6_struct_encode_layout (env : List LcmStruct) (fuel : Nat) (ls : LcmStruct)
    (fields : List DartValue) (bs : List Nat)
    (h : encodeStructV env fuel ls fields = some bs) :
    ∃ chunks : List (List Nat),
      List.Forall₂
        (fun (p : LcmMember × DartValue) c =>
          encodeDims (mkScope ls.members fields)
            (fun v => encodeOne env fuel p.1.lctypename v) p.1.dimensions p.2 = some c)
        (ls.members.zip fields) chunks
      ∧ bs = beBytes 8 (fingerprint ls.hash) ++ chunks.flatten
      ∧ chunks.length = ls.members.length
      ∧ fields.length = ls.members.length := by
  rw [encodeStructV] at h
  match hm : encodeMembers (fun tn v => encodeOne env fuel tn v)
      (mkScope ls.members fields) ls.members fields with
  | none => rw [hm] at h; exact absurd h (by simp)
  | some mb =>
    rw [hm] at h
    simp at h
    obtain ⟨chunks, hf, hflat, hlen⟩ := encodeMembers_chunks _ _ _ _ _ hm
    refine ⟨chunks, hf, by rw [← h, hflat], ?_, hlen⟩
    have := hf.length_eq
    simp [List.length_zip, hlen] at this
    omega

/-- Witness for C6: the encoding of an `inner_t` instance with `x = 5`
decomposes as fingerprint bytes plus one chunk per member. -/
theorem c6_struct_encode_layout_witness :
    ∃ chunks : List (List Nat),
      List.Forall₂
        (fun (p : LcmMember × DartValue) c =>
          encodeDims (mkScope demoInner.members [.vint 5])
            (fun v => encodeOne demoEnv 1 p.1.lctypename v) p.1.dimensions p.2 = some c)
        (demoInner.members.zip [.vint 5]) chunks
      ∧ beBytes 8 (fingerprint 1) ++ intBytes 1 5
          = beBytes 8 (fingerprint demoInner.hash) ++ chunks.flatten
      ∧ chunks.length = demoInner.members.length
      ∧ [DartValue.vint 5].length = demoInner.members.length :=
  c6_struct_encode_layout demoEnv 1 demoInner [.vint 5]
    (beBytes 8 (fingerprint 1) ++ intBytes 1 5) (by decide)

/-- C7: for every 64-bit hash pattern, the emitted fingerprint constant
equals the claimed `((h << 1) | ((h >> 63) & 1)) mod 2^64`, which is
the 1-bit left rotation of `h` (the transform itself is a pure
function of the hash, so equal hashes give equal fingerprints by
definition). -/
theorem c7_fingerprint_transform (h : Nat) (hh : h < 2 ^ 64) :
    fingerprint h = ((h <<< 1) ||| ((h >>> 63) &&& 1)) % 2 ^ 64
    ∧ fingerprint h = h % 2 ^ 63 * 2 + h / 2 ^ 63 := by
  have hs : h <<< 1 = 2 * h := by rw [Nat.shiftLeft_eq]; ring
  have hr : (h >>> 63) &&& 1 = h / 2 ^ 63 % 2 := by
    rw [Nat.shiftRight_eq_div_pow, Nat.and_one_is_mod]
  have hq : h / 2 ^ 63 < 2 := by
    have : (2 : Nat) ^ 64 = 2 ^ 63 * 2 := by norm_num
    omega
  have hq2 : h / 2 ^ 63 % 2 = h / 2 ^ 63 := Nat.mod_eq_of_lt hq
  constructor
  · rw [fingerprint, hs, hr, hq2, two_mul_or_bit h _ hq]
  · rw [fingerprint, hs, hr, hq2]
    have hsplit : (2 : Nat) ^ 64 = 2 ^ 63 * 2 := by norm_num
    have hdm : 2 ^ 63 * (h / 2 ^ 63) + h % 2 ^ 63 = h := Nat.div_add_mod h (2 ^ 63)
    have hlt : h % 2 ^ 63 < 2 ^ 63 := Nat.mod_lt _ (by norm_num)
    have hrw : 2 * h + h / 2 ^ 63
        = (h % 2 ^ 63 * 2 + h / 2 ^ 63) + (h / 2 ^ 63) * 2 ^ 64 := by
      rw [hsplit]; ring_nf; omega
    rw [hrw, Nat.add_mul_mod_self_right, Nat.mod_eq_of_lt]
    omega

/-- Witness for C7: the transform at hash pattern 3. -/
theorem c7_fingerprint_transform_witness :
    fingerprint 3 = ((3 <<< 1) ||| ((3 >>> 63) &&& 1)) % 2 ^ 64
    ∧ fingerprint 3 = 3 % 2 ^ 63 * 2 + 3 / 2 ^ 63 :=
  c7_fingerprint_transform 3 (by decide)

/-- C8: for any type name that is none of the nine primitive names, the
type mapper returns the name unchanged, the emitted encode statement
delegates to the accessor's `encode` method, and the emitted decode
statement delegates to the type's static `decode` method — no
unresolved-type failure exists in this path. -/
theorem c8_unmapped_type_is_struct_ref (tn accessor : List Nat)
    (hp : tn ∉ [strBytes "byte", strBytes "int8_t", strBytes "int16_t",
      strBytes "int32_t", strBytes "int64_t", strBytes "float", strBytes "double",
      strBytes "string", strBytes "boolean"]) :
    map_type_dart tn = tn
    ∧ emitEncodeOne tn accessor = [accessor ++ strBytes ".encode(buf);"]
    ∧ emitDecodeOne tn accessor = [accessor ++ tn ++ strBytes ".decode(buf);"] := by
  simp at hp
  obtain ⟨n1, n2, n3, n4, n5, n6, n7, n8, n9⟩ := hp
  refine ⟨?_, ?_, ?_⟩ <;>
    simp [map_type_dart, emitEncodeOne, emitDecodeOne, n1, n2, n3, n4, n5, n6, n7, n8, n9]

/-- Witness for C8: the unmapped type name `pose_t` with accessor `a`. -/
theorem c8_unmapped_type_is_struct_ref_witness :
    map_type_dart (strBytes "pose_t") = strBytes "pose_t"
    ∧ emitEncodeOne (strBytes "pose_t") (strBytes "a")
        = [strBytes "a" ++ strBytes ".encode(buf);"]
    ∧ emitDecodeOne (strBytes "pose_t") (strBytes "a")
        = [strBytes "a" ++ strBytes "pose_t" ++ strBytes ".decode(buf);"] :=
  c8_unmapped_type_is_struct_ref (strBytes "pose_t") (strBytes "a") (by decide)

/-- C9: if every earlier struct in the batch either is skipped or
writes successfully, and the output unit for some struct both needs
generation and cannot be opened, then `emit_dart`'s loop stops at that
struct: it returns status `-1` (nonzero) and the set of written outputs
is exactly that of the earlier structs — independent of everything
after the failing struct, which is therefore never processed. -/
theorem c9_io_failure_aborts_batch (env : EmitEnv) (dp : List Nat)
    (pre : List LcmStruct) (ls : LcmStruct) (post : List LcmStruct)
    (hpre : ∀ s ∈ pre, env.needsGen (pathFor dp s) → env.ioOk (pathFor dp s))
    (hg : env.needsGen (pathFor dp ls) = true)
    (hio : env.ioOk (pathFor dp ls) = false) :
    emitDartLoop env dp (pre ++ ls :: post) = (-1, writtenPaths env dp pre)
    ∧ (emitDartLoop env dp (pre ++ ls :: post)).1 ≠ 0 := by
  have main : emitDartLoop env dp (pre ++ ls :: post) = (-1, writtenPaths env dp pre) := by
    induction pre with
    | nil =>
      simp only [List.nil_append, emitDartLoop, writtenPaths, hg, emitStructStatus, hio]
      simp
    | cons s pre ih =>
      have hpre' : ∀ s2 ∈ pre, env.needsGen (pathFor dp s2) → env.ioOk (pathFor dp s2) :=
        fun s2 hs2 => hpre s2 (List.mem_cons_of_mem s hs2)
      by_cases hgen : env.needsGen (pathFor dp s)
      · have hok : env.ioOk (pathFor dp s) := hpre s (List.mem_cons_self s pre) hgen
        simp [emitDartLoop, writtenPaths, hgen, hok, emitStructStatus, ih hpre']
      · simp [emitDartLoop, writtenPaths, hgen, ih hpre']
  exact ⟨main, by rw [main]; simp⟩

/-- Witness for C9: with an oracle under which every open fails, the
batch over the two sample structs stops at the first with status `-1`
and writes nothing — `demoOuter` is never reached. -/
theorem c9_io_failure_aborts_batch_witness :
    emitDartLoop failEnv (strBytes "out") [demoInner, demoOuter] = (-1, [])
    ∧ (emitDartLoop failEnv (strBytes "out") [demoInner, demoOuter]).1 ≠ 0 :=
  have h := c9_io_failure_aborts_batch failEnv (strBytes "out") [] demoInner [demoOuter]
    (by simp) (by decide) (by decide)
  ⟨h.1, h.2⟩

/-- C10: for any short name that contains an underscore or starts with
a lowercase letter, the PascalCase class identifier emitted for the
struct differs textually from the raw name; yet the raw (unmapped) name
is what the type mapper hands to delegating encode/decode references,
and the output file path ends in the raw short name plus `.g.dart`. -/
theorem c10_class_name_vs_raw_name (s : List Nat)
    (h : 95 ∈ s ∨ ∃ c rest, s = c :: rest ∧ 97 ≤ c ∧ c ≤ 122)
    (hp : s ∉ [strBytes "byte", strBytes "int8_t", strBytes "int16_t",
      strBytes "int32_t", strBytes "int64_t", strBytes "float", strBytes "double",
      strBytes "string", strBytes "boolean"]) :
    to_pascal_case s ≠ s
    ∧ map_type_dart s = s
    ∧ ∀ dp pkg : List Nat, ∃ pre : List Nat,
        outputPath dp pkg s = pre ++ (s ++ strBytes ".g.dart") := by
  refine ⟨?_, ?_, ?_⟩
  · rcases h with h95 | ⟨c, rest, hs, hc1, hc2⟩
    · intro heq
      have := pascalGo_length_lt s h95 true
      rw [to_pascal_case] at heq
      rw [heq] at this
      omega
    · subst hs
      intro heq
      rw [to_pascal_case, pascalGo] at heq
      have hc95 : c ≠ 95 := by omega
      rw [if_neg hc95, if_pos rfl] at heq
      have hhead : c_toupper c = c := (List.cons.injEq _ _ _ _ ▸ heq).1
      rw [c_toupper, if_pos ⟨hc1, hc2⟩] at hhead
      omega
  · simp at hp
    obtain ⟨n1, n2, n3, n4, n5, n6, n7, n8, n9⟩ := hp
    simp [map_type_dart, n1, n2, n3, n4, n5, n6, n7, n8, n9]
  · intro dp pkg
    exact ⟨dp ++ (if dp.length > 0 then strBytes "/" else []) ++ dots_to_slashes pkg ++
      (if (dots_to_slashes pkg).length > 0 then strBytes "/" else []), by
        simp [outputPath]⟩

/-- Witness for C10: the short name `vector3f_t` (it contains an
underscore and starts lowercase). -/
theorem c10_class_name_vs_raw_name_witness :
    to_pascal_case (strBytes "vector3f_t") ≠ strBytes "vector3f_t"
    ∧ map_type_dart (strBytes "vector3f_t") = strBytes "vector3f_t"
    ∧ ∀ dp pkg : List Nat, ∃ pre : List Nat,
        outputPath dp pkg (strBytes "vector3f_t")
          = pre ++ (strBytes "vector3f_t" ++ strBytes ".g.dart") :=
  c10_class_name_vs_raw_name (strBytes "vector3f_t") (Or.inl (by decide)) (by decide)
